import Mathlib

/-!
Verification of the TaskWeaver Code Execution Service (CES) against its
natural-language specification.

The definitions below are a shallow embedding of the Python source:

* `taskweaver/ces/server/session_manager.py` (`ServerSessionManager`)
* `taskweaver/ces/server/routes.py` (FastAPI route handlers)
* `taskweaver/ces/client/execution_client.py` (`ExecutionClient`)
* `taskweaver/ces/runtime/context.py` (`ExecutorPluginContext`)
* `taskweaver/code_interpreter/code_verification.py` (`FunctionCallValidator`)
* `taskweaver/memory/compaction.py` (`ContextCompactor`)

Pure functions are translated to Lean functions; stateful code is explicit
state passing; Python exceptions become `Except`/`Option`; the POSIX
filesystem is abstracted by the set of existing files and the usual
component-wise resolution of `.` and `..` (symlinks are not modelled).
-/

namespace TaskWeaver

/-! ## POSIX path model

The server runs on Linux, so `os.path` is `posixpath` with separator `/`.
We model path strings faithfully as Lean `String`s (lists of characters)
and give the exact semantics of the two `os.path` operations the code
uses: `basename` and `join`.
-/

/-- Split a character list into the groups separated by `'/'`, exactly the
grouping induced by the separator: `splitSlash "a/b".data = [['a'],['b']]`,
and a trailing or leading slash yields an empty group. -/
def splitSlash : List Char → List (List Char)
  | [] => [[]]
  | c :: cs =>
    if c = '/' then [] :: splitSlash cs
    else
      match splitSlash cs with
      | [] => [[c]]
      | g :: gs => (c :: g) :: gs

/-- `posixpath.basename(p)` returns `p[p.rfind('/') + 1:]`: the characters
after the last slash, i.e. the last slash-separated group of `p`. -/
def pyBasename (s : String) : String :=
  String.mk ((splitSlash s.data).getLastD [])

/-- Python's `str.startswith(pre)`: `pre` is a prefix of the character
sequence of `s`. -/
def pyStartsWith (s pre : String) : Bool :=
  pre.data.isPrefixOf s.data

/-- Two-argument `posixpath.join(a, b)`: if `b` starts with the separator
the result is `b`; if `a` is empty or ends with the separator the result is
`a + b`; otherwise `a + '/' + b`. -/
def pjoinL (a b : List Char) : List Char :=
  if b.head? = some '/' then b
  else if a = [] ∨ a.getLast? = some '/' then a ++ b
  else a ++ '/' :: b

/-- String wrapper for `posixpath.join` on two components. -/
def pyJoin (a b : String) : String :=
  String.mk (pjoinL a.data b.data)

/-- One step of POSIX path resolution over already-split components:
empty components and `.` are skipped, `..` removes the last kept component
(at the root, `/..` stays at the root), any other component is appended. -/
def resolveStep (acc : List String) (c : String) : List String :=
  if c = "" ∨ c = "." then acc
  else if c = ".." then acc.dropLast
  else acc ++ [c]

/-- Resolve a list of path components. -/
def resolveComps (cs : List String) : List String :=
  cs.foldl resolveStep []

/-- Resolve a path string (as the OS kernel does when the path is opened,
ignoring symlinks): split on `/` and process `.`/`..` components.
An absolute path resolves to its list of components below the root. -/
def resolvePath (s : String) : List String :=
  resolveComps ((splitSlash s.data).map String.mk)

/-- List-of-characters form of `resolvePath` (the proofs work at this
level). -/
def resolveL (l : List Char) : List String :=
  resolveComps ((splitSlash l).map String.mk)

/-- A path `p` stays under directory `dir` iff the resolved components of
`dir` are a prefix of the resolved components of `p`. -/
def underDir (dir p : String) : Bool :=
  (resolvePath dir).isPrefixOf (resolvePath p)

/-- A filesystem is the set of existing regular files, each identified by
its resolved component list.  `os.path.isfile(p)` resolves `p` and checks
membership. -/
def osIsFile (files : List (List String)) (p : String) : Bool :=
  files.contains (resolvePath p)

/-! ## Server sessions (`session_manager.py`)

`ServerSession` keeps the two fields the artifact and upload paths use.
-/

/-- The per-session record of `ServerSessionManager` (`ServerSession`),
restricted to the fields read by `get_artifact_path` and `upload_file`. -/
structure ServerSession where
  cwd : String
  session_dir : String
deriving DecidableEq, Repr

/-- `ServerSessionManager.get_artifact_path`: join the session `cwd` with
the requested filename and return it when a file exists there; otherwise
try `session_dir/cwd/filename`; otherwise `None`.  No containment check is
performed on the joined path. -/
def get_artifact_path (files : List (List String)) (s : ServerSession)
    (filename : String) : Option String :=
  let artifact_path := pyJoin s.cwd filename
  if osIsFile files artifact_path then some artifact_path
  else
    let artifact_path := pyJoin (pyJoin s.session_dir "cwd") filename
    if osIsFile files artifact_path then some artifact_path
    else none

/-- Response of the artifact download endpoint: either a `FileResponse`
serving the file at `path`, or an `HTTPException` with a status code and
detail string. -/
inductive ArtifactResponse where
  | fileResponse (path : String)
  | httpError (status : Nat) (detail : String)
deriving DecidableEq, Repr

/-- `download_artifact` in `routes.py`, in the branch where
`session_manager.session_exists(session_id)` holds: look the path up with
`get_artifact_path`; `None` yields HTTP 404, otherwise the file at the
returned path is served with a `FileResponse` (HTTP 200).  (The fallback
branch for chat sessions only runs when the session does not exist and is
not modelled here.) -/
def download_artifact (files : List (List String)) (s : ServerSession)
    (filename : String) : ArtifactResponse :=
  match get_artifact_path files s filename with
  | some artifact_path => .fileResponse artifact_path
  | none => .httpError 404 ("Artifact " ++ filename ++ " not found")

/-- A completed write of `data` (a byte list) to the file at `path`. -/
structure WriteOp where
  path : String
  data : List Nat
deriving DecidableEq, Repr

/-- `open(p, "wb")` on POSIX: creating/truncating a regular file fails when
the final path component names a directory (`.`/`..`) or is empty (the
path ends in a slash); any other final component can be created inside an
existing directory. -/
def posixOpenWrite (p : String) (data : List Nat) : Option WriteOp :=
  if pyBasename p = "" ∨ pyBasename p = "." ∨ pyBasename p = ".." then none
  else some ⟨p, data⟩

/-- `ServerSessionManager.upload_file`: sanitize the requested filename to
its basename, join with the session `cwd`, and write the content there.
Returns the target path together with the write performed (if the OS-level
open succeeded). -/
def upload_file_manager (s : ServerSession) (filename : String)
    (content : List Nat) : String × Option WriteOp :=
  let safe_filename := pyBasename filename
  let file_path := pyJoin s.cwd safe_filename
  (file_path, posixOpenWrite file_path content)

/-- Body of the `POST /sessions/{id}/files` request. -/
structure UploadFileRequest where
  filename : String
  content : String
  encoding : String
deriving DecidableEq, Repr

/-- Decoding step of the `upload_file` route handler: `base64.b64decode`
for encoding `"base64"`, `str.encode("utf-8")` otherwise.  The two
decoders are external library functions and are passed in as parameters of
the embedding. -/
def decodeUploadContent (b64decode utf8encode : String → List Nat)
    (req : UploadFileRequest) : List Nat :=
  if req.encoding = "base64" then b64decode req.content
  else utf8encode req.content

/-- The `upload_file` route handler in `routes.py`, in the branch where the
session exists: decode the content, then delegate to
`ServerSessionManager.upload_file`. -/
def upload_file_route (b64decode utf8encode : String → List Nat)
    (s : ServerSession) (req : UploadFileRequest) : String × Option WriteOp :=
  upload_file_manager s req.filename (decodeUploadContent b64decode utf8encode req)

/-! ## Session registry stop/create (`session_manager.py`)

The id → session map is modelled by its list of keys (Python `dict` keys
are unique).  Stopping the kernel environment may raise; the outcome is a
parameter. -/

/-- `ServerSessionManager.stop_session`: raise `KeyError` when the id is
absent; otherwise call `environment.stop_session` inside
`try/except` (an error is only logged) and in the `finally` block delete
the id from the map.  The function returns the new key list or the raised
error. -/
def stop_session (envStop : String → Except String Unit)
    (sessions : List String) (session_id : String) : Except String (List String) :=
  if session_id ∈ sessions then
    match envStop session_id with
    | .ok _ => .ok (sessions.erase session_id)
    | .error _ => .ok (sessions.erase session_id)
  else .error ("Session " ++ session_id ++ " not found")

/-- `ServerSessionManager.create_session`, restricted to the map update:
raise `ValueError` when the id is present, otherwise add it. -/
def create_session (sessions : List String) (session_id : String) :
    Except String (List String) :=
  if session_id ∈ sessions then
    .error ("Session " ++ session_id ++ " already exists")
  else .ok (sessions ++ [session_id])

/-! ## Context compactor (`memory/compaction.py`)

State of a `ContextCompactor` is its append-only `_compacted_queue`.
A worker pass (`_try_compact`) reads the current rounds through
`rounds_getter` (only their count matters for the guards) and calls the
LLM; the LLM outcome is a parameter: `none` models
`llm_api.chat_completion` raising, `some s` models it returning content
`s` (non-string content is already mapped to `""` by
`_call_llm_for_summary`). -/

/-- `CompactedMessage` from `memory/compaction.py`. -/
structure CompactedMessage where
  start_index : Int
  end_index : Int
  summary : String
deriving DecidableEq, Repr

/-- The `threshold` and `retain_recent` fields of `CompactorConfig`
(Python ints). -/
structure CompactorConfig where
  threshold : Int
  retain_recent : Int
deriving DecidableEq, Repr

/-- `ContextCompactor.get_compaction`: last element of the queue, if any. -/
def get_compaction (q : List CompactedMessage) : Option CompactedMessage :=
  q.getLast?

/-- The local `compacted_end = compacted.end_index if compacted else 0` of
`_try_compact`. -/
def compactedEndIdx (q : List CompactedMessage) : Int :=
  match get_compaction q with
  | some c => c.end_index
  | none => 0

/-- The characters Python's `str.strip()` removes: exactly those for
which CPython's `Py_UNICODE_ISSPACE` holds, i.e. U+0009–U+000D, U+001C–
U+001F, U+0020, U+0085, U+00A0, U+1680, U+2000–U+200A, U+2028, U+2029,
U+202F, U+205F and U+3000. -/
def pyIsSpace (c : Char) : Bool :=
  c.toNat ∈ [0x09, 0x0a, 0x0b, 0x0c, 0x0d, 0x1c, 0x1d, 0x1e, 0x1f, 0x20,
    0x85, 0xa0, 0x1680, 0x2028, 0x2029, 0x202f, 0x205f, 0x3000]
  ∨ (0x2000 ≤ c.toNat ∧ c.toNat ≤ 0x200a)

/-- The guard `if not summary or not summary.strip()` of `_do_compaction`:
true iff the summary is empty or strips to the empty string, i.e. every
character is whitespace. -/
def summaryIsBlank (summary : String) : Bool :=
  summary.isEmpty ∨ summary.data.all pyIsSpace

/-- `ContextCompactor._do_compaction` restricted to its effect on the
queue: obtain the summary from the LLM (`llm`), raise `ValueError` when
the call raised or the summary is blank, otherwise append
`CompactedMessage(start_index=1, end_index=new_end, summary)`. -/
def do_compaction (llm : Option String) (q : List CompactedMessage)
    (new_end : Int) : Except String (List CompactedMessage) :=
  match llm with
  | none => .error "chat_completion raised"
  | some summary =>
    if summaryIsBlank summary then .error "LLM returned empty summary"
    else .ok (q ++ [⟨1, new_end, summary⟩])

/-- `ContextCompactor._try_compact`: with `total` the number of rounds
returned by `rounds_getter`, return early when `total == 0`, when the
uncompacted count is below the threshold, or when
`new_end <= 0 or compacted_end >= new_end`; otherwise run
`_do_compaction`.  The surrounding `try/except` logs any failure and
leaves the queue unchanged. -/
def try_compact (cfg : CompactorConfig) (llm : Option String) (total : Nat)
    (q : List CompactedMessage) : List CompactedMessage :=
  if total = 0 then q
  else
    let compacted_end : Int := compactedEndIdx q
    let uncompacted_count : Int := (total : Int) - compacted_end
    if uncompacted_count < cfg.threshold then q
    else
      let new_end : Int := (total : Int) - cfg.retain_recent
      if new_end ≤ 0 ∨ compacted_end ≥ new_end then q
      else
        match do_compaction llm q new_end with
        | .ok q2 => q2
        | .error _ => q

/-- One observable transition of a compactor instance: a worker pass with
some configuration, LLM outcome and current round count.  (The
configuration is fixed per instance in the source; quantifying over it
here only strengthens the reachability results.) -/
def CompactorStep (q q2 : List CompactedMessage) : Prop :=
  ∃ cfg llm total, q2 = try_compact cfg llm total q

/-- Queue states reachable from the initial empty `_compacted_queue` by
worker passes. -/
def CompactorReachable (q : List CompactedMessage) : Prop :=
  Relation.ReflTransGen CompactorStep [] q

/-! ## Streaming execution (`routes.py`)

`_execute_streaming` drives one streaming execution: the `on_output`
callback enqueues `output` events while the kernel runs, then the `try`
body enqueues one `result` event built from the `ExecutionResult`, the
`except` branch enqueues one failure `result` event, and the `finally`
block enqueues one `done` event.  The queue is FIFO; we record the
sequence of enqueued items. -/

/-- The fields of an `ExecutionResult` serialized into the `result`
event. -/
structure ExecResult where
  execution_id : String
  is_success : Bool
  error : Option String
  output : String
  stdout : List String
  stderr : List String
deriving DecidableEq, Repr

/-- An item placed on the per-execution `asyncio.Queue`. -/
inductive StreamEvent where
  | output (type : String) (text : String)
  | result (r : ExecResult)
  | done
deriving DecidableEq, Repr

/-- Enqueue on the FIFO `asyncio.Queue`. -/
def qput (q : List StreamEvent) (e : StreamEvent) : List StreamEvent :=
  q ++ [e]

/-- The failure `result` payload built in the `except` branch of
`_execute_streaming`. -/
def failureResult (exec_id : String) (msg : String) : ExecResult :=
  ⟨exec_id, false, some msg, "", [], []⟩

/-- The stream key `f"{session_id}:{exec_id}"` under which the queue is
registered in `_pending_streams`. -/
def streamKey (session_id exec_id : String) : String :=
  session_id ++ ":" ++ exec_id

/-- The payload of the single `result` event of one streaming execution:
the serialized kernel result on success, the failure payload when
`execute_code_async` raised. -/
def streamResultOf (exec_id : String) :
    Except String ExecResult → ExecResult
  | .ok r => r
  | .error e => failureResult exec_id e

/-- Recognizer for `result` events. -/
def isResultEvent : StreamEvent → Bool
  | .result _ => true
  | _ => false

/-- Recognizer for `done` events. -/
def isDoneEvent : StreamEvent → Bool
  | .done => true
  | _ => false

/-- The full sequence of items enqueued on the queue of one streaming
execution.  `outs` are the `(stream_name, text)` pairs delivered to
`on_output` while the kernel ran (each is enqueued as an `output` event,
in order), and `outcome` is the result of `execute_code_async`: a normal
`ExecutionResult` or a raised exception message. -/
def execute_streaming (exec_id : String) (outs : List (String × String))
    (outcome : Except String ExecResult) : List StreamEvent :=
  let q := outs.foldl (fun q o => qput q (.output o.1 o.2)) []
  let q :=
    match outcome with
    | .ok r => qput q (.result r)
    | .error e => qput q (.result (failureResult exec_id e))
  qput q .done

/-! ## Service client start (`execution_client.py`)

`ExecutionClient.start` posts a session create; the server either answers
201 (session added to the registry) or 409 (id already present).  A 409 is
adopted: the client marks itself started.  Other failure modes of the
create route re-raise in the client and are outside this model. -/

/-- The client state fields `start` reads and writes. -/
structure ClientState where
  session_id : String
  cwd : Option String
  started : Bool
deriving DecidableEq, Repr

/-- Server-side registry state: the session id map, keyed by id, plus the
work dir used to derive a default cwd. -/
structure ServerState where
  work_dir : String
  sessions : List String
deriving DecidableEq, Repr

/-- Response of `POST /api/v1/sessions`. -/
inductive CreateSessionResponse where
  | created (cwd : String)
  | conflict409
deriving DecidableEq, Repr

/-- The cwd assigned by `ServerSessionManager.create_session`: the
caller-supplied cwd, or `<work_dir>/sessions/<session_id>/cwd`. -/
def sessionCwd (work_dir session_id : String) (cwd : Option String) : String :=
  match cwd with
  | some c => c
  | none => pyJoin (pyJoin (pyJoin work_dir "sessions") session_id) "cwd"

/-- The `create_session` route: 409 when the id exists, otherwise create
the session and answer 201 with its cwd. -/
def postCreateSession (srv : ServerState) (session_id : String)
    (cwd : Option String) : ServerState × CreateSessionResponse :=
  if session_id ∈ srv.sessions then (srv, .conflict409)
  else
    ({ srv with sessions := srv.sessions ++ [session_id] },
     .created (sessionCwd srv.work_dir session_id cwd))

/-- `ExecutionClient.start`: a no-op when already started; otherwise POST
the create and either record the returned cwd and set `_started`, or — on
a 409 — just set `_started` ("already exists, reusing"). -/
def client_start (c : ClientState) (srv : ServerState) :
    ClientState × ServerState :=
  if c.started then (c, srv)
  else
    match postCreateSession srv c.session_id c.cwd with
    | (srv2, .created cwd) => ({ c with cwd := some cwd, started := true }, srv2)
    | (srv2, .conflict409) => ({ c with started := true }, srv2)

/-- A subsequent per-session operation as every route dispatches it: a 404
when the id is not in the registry, success otherwise (the kernel-level
behaviour is irrelevant to the claim). -/
def sessionOp (srv : ServerState) (session_id : String) : Except Nat Unit :=
  if session_id ∈ srv.sessions then .ok () else .error 404

/-! ## Visible variables (`ces/runtime/context.py`)

`extract_visible_variables` walks the kernel namespace.  A namespace value
is classified by the `isinstance` checks of the source; the two points
where the Python rendering can raise (`numpy.array2string` and `repr`) are
modelled with `Option String` (`none` = the call raised). -/

/-- A value in the kernel namespace, as far as
`extract_visible_variables` distinguishes values:
`module`/`function` match the `types.ModuleType`/`types.FunctionType`
check; `pluginInstance` matches `isinstance(value, Plugin)` or a
`__module__` starting with `"taskweaver_ext.plugin"`; `ndarray` carries
`str(value.shape)`, `str(value.dtype)` and the outcome of
`numpy.array2string`; `str` carries the string itself; `other` carries
the outcome of `repr`. -/
inductive PyValue where
  | module
  | function
  | pluginInstance
  | ndarray (shape : String) (dtype : String) (array2string : Option String)
  | str (s : String)
  | other (rep : Option String)
deriving DecidableEq, Repr

/-- The fixed `ignore_names` set of `extract_visible_variables`. -/
def ignoreNames : List String :=
  ["__builtins__", "In", "Out", "get_ipython", "exit", "quit",
   "pd", "np", "plt",
   "original_ps1", "is_wsl", "PS1", "REPLHooks"]

/-- Python string slicing `s[:500]` (by characters). -/
def pyTrunc500 (s : String) : String :=
  String.mk (s.data.take 500)

/-- The rendered string for one namespace value, before the final
`[:500]` truncation is applied by the caller:
ndarray → `"ndarray shape=… dtype=… value=…"`, or `"<ndarray>"` when
`array2string` raised; strings verbatim; otherwise `repr`, or
`"<unrepresentable>"` when `repr` raised.  (For `module`, `function` and
`pluginInstance` the function is never consulted — those values are
filtered out first.) -/
def renderValue : PyValue → String
  | .ndarray shape dtype (some a2s) =>
      "ndarray shape=" ++ shape ++ " dtype=" ++ dtype ++ " value=" ++ a2s
  | .ndarray _ _ none => "<ndarray>"
  | .str s => s
  | .other (some rep) => rep
  | .other none => "<unrepresentable>"
  | .module => ""
  | .function => ""
  | .pluginInstance => ""

/-- Whether `extract_visible_variables` skips the namespace entry:
names starting with `_` or in the ignore set, and module, function and
plugin values. -/
def entrySkipped (name : String) (value : PyValue) : Bool :=
  pyStartsWith name "_" ∨ name ∈ ignoreNames ∨
  value = .module ∨ value = .function ∨ value = .pluginInstance

/-- `ExecutorPluginContext.extract_visible_variables`: filter the
namespace and render each kept value, truncated to 500 characters. -/
def extract_visible_variables (local_ns : List (String × PyValue)) :
    List (String × String) :=
  local_ns.filterMap fun nv =>
    if entrySkipped nv.1 nv.2 then none
    else some (nv.1, pyTrunc500 (renderValue nv.2))

/-! ## Code verifier (`code_interpreter/code_verification.py`)

The validator is an `ast.NodeVisitor`; we embed the Python AST fragment
the visitor distinguishes and the visitor itself.  `generic_visit`
recurses into all child nodes, so each `visit` function appends its own
errors and then the errors of its children, in field order. -/

/-- The Python expression AST, restricted to the node kinds the validator
distinguishes: `ast.Name`, `ast.Constant` (carrying `some s` when the
constant is the string `s`), `ast.Call`, `ast.Attribute` and
`ast.Subscript`.  Every node carries its `lineno`. -/
inductive PyExpr where
  | name (lineno : Nat) (id : String)
  | const (lineno : Nat) (strVal : Option String)
  | call (lineno : Nat) (func : PyExpr) (args : List PyExpr)
  | attrAccess (lineno : Nat) (value : PyExpr) (attrName : String)
  | subscriptE (lineno : Nat) (value : PyExpr) (slice : PyExpr)

/-- Python statements the validator treats specially (`ast.Import`,
`ast.ImportFrom` with its optional module, `ast.Assign`) plus expression
statements; other statement kinds only contribute their child expressions
and are represented by `exprStmt` over those children. -/
inductive PyStmt where
  | exprStmt (e : PyExpr)
  | assign (lineno : Nat) (targets : List PyExpr) (value : PyExpr)
  | importStmt (lineno : Nat) (names : List String)
  | importFrom (lineno : Nat) (module : Option String)

/-- `DANGEROUS_BUILTINS` from `code_verification.py`. -/
def DANGEROUS_BUILTINS : List String :=
  ["getattr", "setattr", "delattr", "vars", "globals", "locals",
   "__getattribute__", "__setattr__", "__delattr__",
   "__dict__", "__class__", "__bases__", "__subclasses__", "__mro__",
   "__builtins__"]

/-- The violations the validator can append.  Each constructor stands for
one `f"Error on line {lineno}: {line} => …"` message of the source (the
renderings are injective per message kind); it carries the line number,
the quoted source line, and the offending name where the message quotes
one. -/
inductive Violation where
  | subscriptCall (lineno : Nat) (line : String)
  | unrecognizedCall (lineno : Nat) (line : String)
  | functionNotAllowed (lineno : Nat) (line : String) (fn : String)
  | dangerousFunction (lineno : Nat) (line : String) (fn : String)
  | moduleNotAllowed (lineno : Nat) (line : String) (module : String)
  | importFromNotAllowed (lineno : Nat) (line : String) (module : String)
  | assignNotAllowed (lineno : Nat) (line : String) (var : String)
  | subscriptBlocked (lineno : Nat) (line : String) (key : String)
  | attributeBlocked (lineno : Nat) (line : String) (attrName : String)
deriving DecidableEq, Repr

/-- The validator's constructor arguments: the processed source lines and
the five policy lists.  The `assert`s of `__init__` demand that at most
one of each allow/block pair is set; see `PolicyWF`. -/
structure Policy where
  lines : List String
  allowed_modules : Option (List String)
  blocked_modules : Option (List String)
  allowed_functions : Option (List String)
  blocked_functions : Option (List String)
  allowed_variables : Option (List String)
deriving DecidableEq, Repr

/-- The `assert`s in `FunctionCallValidator.__init__`: configuring both
allow and block for the same axis fails at construction time. -/
def PolicyWF (v : Policy) : Prop :=
  (v.allowed_modules = none ∨ v.blocked_modules = none) ∧
  (v.allowed_functions = none ∨ v.blocked_functions = none)

/-- `self.lines[lineno - 1]`: the quoted source line.  `ast.parse`
guarantees every reported `lineno` is within the processed lines, so the
out-of-range default is never reached on real input. -/
def lineAt (v : Policy) (lineno : Nat) : String :=
  v.lines.getD (lineno - 1) ""

/-- `FunctionCallValidator._is_allowed_function_call`. -/
def is_allowed_function_call (v : Policy) (func_name : String) : Bool :=
  match v.allowed_functions with
  | some allowed => if allowed.length > 0 then func_name ∈ allowed else false
  | none =>
    match v.blocked_functions with
    | some blocked => if blocked.length > 0 then func_name ∉ blocked else true
    | none => true

/-- `FunctionCallValidator._is_allowed_module_import`. -/
def is_allowed_module_import (v : Policy) (mod_name : String) : Bool :=
  match v.allowed_modules with
  | some allowed => if allowed.length > 0 then mod_name ∈ allowed else false
  | none =>
    match v.blocked_modules with
    | some blocked => if blocked.length > 0 then mod_name ∉ blocked else true
    | none => true

/-- `FunctionCallValidator._is_allowed_variable`: with a configured allow
list the name must be in it, and an empty allow list blocks every
assignment target. -/
def is_allowed_variable (v : Policy) (var_name : String) : Bool :=
  match v.allowed_variables with
  | some allowed => if allowed.length > 0 then var_name ∈ allowed else false
  | none => true

/-- The errors `visit_Call` appends for the call node itself (before
`generic_visit`): dispatch on the shape of `node.func`; for a `Name` or
`Attribute` callee run the list-policy check and then the unconditional
dangerous-name check; a `Subscript` callee and any unrecognized callee
are rejected outright; a `Call` callee adds nothing. -/
def callOwnErrors (v : Policy) (lineno : Nat) (func : PyExpr) : List Violation :=
  match func with
  | .name _ fn =>
      (if (v.allowed_functions.isSome ∨ v.blocked_functions.isSome) ∧
          fn ≠ "" ∧ ¬ is_allowed_function_call v fn then
        [.functionNotAllowed lineno (lineAt v lineno) fn] else []) ++
      (if fn ∈ DANGEROUS_BUILTINS then
        [.dangerousFunction lineno (lineAt v lineno) fn] else [])
  | .attrAccess _ _ fn =>
      (if (v.allowed_functions.isSome ∨ v.blocked_functions.isSome) ∧
          fn ≠ "" ∧ ¬ is_allowed_function_call v fn then
        [.functionNotAllowed lineno (lineAt v lineno) fn] else []) ++
      (if fn ∈ DANGEROUS_BUILTINS then
        [.dangerousFunction lineno (lineAt v lineno) fn] else [])
  | .subscriptE _ _ _ => [.subscriptCall lineno (lineAt v lineno)]
  | .call _ _ _ => []
  | .const _ _ => [.unrecognizedCall lineno (lineAt v lineno)]

/-- The error `visit_Subscript` appends for the node itself: a constant
string key that is dangerous or starts with `__` is blocked. -/
def subscriptOwnErrors (v : Policy) (lineno : Nat) (slice : PyExpr) :
    List Violation :=
  match slice with
  | .const _ (some key) =>
      if key ∈ DANGEROUS_BUILTINS ∨ pyStartsWith key "__" then
        [.subscriptBlocked lineno (lineAt v lineno) key]
      else []
  | _ => []

/-- The error `visit_Attribute` appends for the node itself. -/
def attributeOwnErrors (v : Policy) (lineno : Nat) (attrName : String) :
    List Violation :=
  if attrName ∈ DANGEROUS_BUILTINS then
    [.attributeBlocked lineno (lineAt v lineno) attrName]
  else []

mutual

/-- The visitor on expressions: own errors of the node followed by the
errors of its children in field order (`generic_visit`). -/
def visitExpr (v : Policy) : PyExpr → List Violation
  | .name _ _ => []
  | .const _ _ => []
  | .call lineno func args =>
      callOwnErrors v lineno func ++ visitExpr v func ++ visitExprList v args
  | .attrAccess lineno value attrName =>
      attributeOwnErrors v lineno attrName ++ visitExpr v value
  | .subscriptE lineno value slice =>
      subscriptOwnErrors v lineno slice ++ visitExpr v value ++ visitExpr v slice

/-- Visit a child list, concatenating errors in order. -/
def visitExprList (v : Policy) : List PyExpr → List Violation
  | [] => []
  | e :: es => visitExpr v e ++ visitExprList v es

end

mutual

/-- All `ast.Name` ids inside an assignment target (`ast.walk` restricted
to our expression fragment; the source collects every `Name` in the
target — `walk` enumerates breadth-first, which permutes but never drops
names; only the order of the resulting violations can differ). -/
def targetNames : PyExpr → List String
  | .name _ id => [id]
  | .const _ _ => []
  | .call _ func args => targetNames func ++ targetNamesList args
  | .attrAccess _ value _ => targetNames value
  | .subscriptE _ value slice => targetNames value ++ targetNames slice

/-- `targetNames` over a list of expressions. -/
def targetNamesList : List PyExpr → List String
  | [] => []
  | e :: es => targetNames e ++ targetNamesList es

end

/-- The errors `visit_Assign` appends for the node itself: when
`allowed_variables` is configured, every collected target name must be
allowed. -/
def assignOwnErrors (v : Policy) (lineno : Nat) (targets : List PyExpr) :
    List Violation :=
  match v.allowed_variables with
  | none => []
  | some _ =>
    (targetNamesList targets).filterMap fun variable_name =>
      if ¬ is_allowed_variable v variable_name then
        some (.assignNotAllowed lineno (lineAt v lineno) variable_name)
      else none

/-- Root package of a dotted module name: `name.split(".")[0]`, i.e. the
characters before the first dot (the whole name when it has no dot). -/
def rootModule (name : String) : String :=
  String.mk (name.data.takeWhile fun c => ¬ c = '.')

/-- The errors `visit_Import` appends: each alias's root package is
checked against the module policy (only when one is configured). -/
def importOwnErrors (v : Policy) (lineno : Nat) (names : List String) :
    List Violation :=
  if v.allowed_modules.isSome ∨ v.blocked_modules.isSome then
    names.filterMap fun aliasName =>
      let module_name := rootModule aliasName
      if ¬ is_allowed_module_import v module_name then
        some (.moduleNotAllowed lineno (lineAt v lineno) module_name)
      else none
  else []

/-- The errors `visit_ImportFrom` appends: the root of `node.module`
(when present and non-empty) is checked against the module policy. -/
def importFromOwnErrors (v : Policy) (lineno : Nat) (module : Option String) :
    List Violation :=
  if v.allowed_modules.isSome ∨ v.blocked_modules.isSome then
    match module with
    | none => []
    | some m =>
      let module_name := rootModule m
      if module_name ≠ "" ∧ ¬ is_allowed_module_import v module_name then
        [.importFromNotAllowed lineno (lineAt v lineno) m]
      else []
  else []

/-- The visitor on statements. -/
def visitStmt (v : Policy) : PyStmt → List Violation
  | .exprStmt e => visitExpr v e
  | .assign lineno targets value =>
      assignOwnErrors v lineno targets ++ visitExprList v targets ++
        visitExpr v value
  | .importStmt lineno names => importOwnErrors v lineno names
  | .importFrom lineno module => importFromOwnErrors v lineno module

/-- `validator.visit(tree)` over a parsed module: visit every statement in
order and collect the errors (`validator.errors`). -/
def validatorErrors (v : Policy) : List PyStmt → List Violation
  | [] => []
  | s :: ss => visitStmt v s ++ validatorErrors v ss

/-! Occurrence of an expression inside a program. -/

/-- `e` occurs (as a subterm, itself included) inside expression `t`. -/
inductive OccursIn : PyExpr → PyExpr → Prop where
  | refl (e : PyExpr) : OccursIn e e
  | callFunc {e func : PyExpr} {lineno args} :
      OccursIn e func → OccursIn e (.call lineno func args)
  | callArg {e a : PyExpr} {lineno func args} :
      a ∈ args → OccursIn e a → OccursIn e (.call lineno func args)
  | attrValue {e value : PyExpr} {lineno attrName} :
      OccursIn e value → OccursIn e (.attrAccess lineno value attrName)
  | subValue {e value slice : PyExpr} {lineno} :
      OccursIn e value → OccursIn e (.subscriptE lineno value slice)
  | subSlice {e value slice : PyExpr} {lineno} :
      OccursIn e slice → OccursIn e (.subscriptE lineno value slice)

/-- `e` occurs inside statement `s`. -/
inductive OccursInStmt : PyExpr → PyStmt → Prop where
  | exprStmt {e t : PyExpr} : OccursIn e t → OccursInStmt e (.exprStmt t)
  | assignTarget {e a : PyExpr} {lineno targets value} :
      a ∈ targets → OccursIn e a →
      OccursInStmt e (.assign lineno targets value)
  | assignValue {e value : PyExpr} {lineno targets} :
      OccursIn e value → OccursInStmt e (.assign lineno targets value)

/-- `e` occurs inside the parsed program `prog`. -/
def OccursInProg (e : PyExpr) (prog : List PyStmt) : Prop :=
  ∃ s ∈ prog, OccursInStmt e s

/-! ## Lemmas about the path model -/

theorem splitSlash_ne_nil (l : List Char) : splitSlash l ≠ [] := by
  induction l with
  | nil => simp [splitSlash]
  | cons c cs ih =>
    simp only [splitSlash]
    split
    · simp
    · split
      · simp
      · simp

theorem no_slash_of_mem_splitSlash {l g : List Char}
    (h : g ∈ splitSlash l) : '/' ∉ g := by
  induction l generalizing g with
  | nil =>
    simp only [splitSlash, List.mem_singleton] at h
    subst h; simp
  | cons c cs ih =>
    by_cases hc : c = '/'
    · subst hc
      have hstep : splitSlash ('/' :: cs) = [] :: splitSlash cs := by
        simp [splitSlash]
      rw [hstep] at h
      rcases List.mem_cons.mp h with h1 | h1
      · subst h1; simp
      · exact ih h1
    · simp only [splitSlash, if_neg hc] at h
      cases hsplit : splitSlash cs with
      | nil => exact absurd hsplit (splitSlash_ne_nil cs)
      | cons g0 gs =>
        rw [hsplit] at h
        simp only [List.mem_cons] at h
        rcases h with h | h
        · subst h
          intro hm
          rcases List.mem_cons.mp hm with h1 | h1
          · exact hc h1.symm
          · exact ih (hsplit ▸ List.mem_cons_self g0 gs) h1
        · exact ih (hsplit ▸ List.mem_cons_of_mem g0 h)

theorem splitSlash_append (a b : List Char) :
    splitSlash (a ++ '/' :: b) = splitSlash a ++ splitSlash b := by
  induction a with
  | nil =>
    show splitSlash ('/' :: b) = splitSlash [] ++ splitSlash b
    simp only [splitSlash, if_pos rfl]
    rfl
  | cons c cs ih =>
    by_cases hc : c = '/'
    · subst hc
      show splitSlash ('/' :: (cs ++ '/' :: b)) = splitSlash ('/' :: cs) ++ _
      simp only [splitSlash, if_pos rfl, ih]
      rfl
    · show splitSlash (c :: (cs ++ '/' :: b)) = splitSlash (c :: cs) ++ _
      simp only [splitSlash, if_neg hc, ih]
      cases hsplit : splitSlash cs with
      | nil => exact absurd hsplit (splitSlash_ne_nil cs)
      | cons g0 gs => simp [hsplit]

theorem splitSlash_of_no_slash {l : List Char} (h : '/' ∉ l) :
    splitSlash l = [l] := by
  induction l with
  | nil => rfl
  | cons c cs ih =>
    have hc : ¬ c = '/' := fun hc => h (hc ▸ List.mem_cons_self c cs)
    have hcs : '/' ∉ cs := fun hm => h (List.mem_cons_of_mem c hm)
    simp only [splitSlash, if_neg hc, ih hcs]

theorem resolveComps_concat (cs : List String) (c : String) :
    resolveComps (cs ++ [c]) = resolveStep (resolveComps cs) c := by
  simp [resolveComps, List.foldl_append]

theorem pyBasename_no_slash (s : String) : '/' ∉ (pyBasename s).data := by
  rcases List.eq_nil_or_concat' (splitSlash s.data) with h | ⟨gs, g, h⟩
  · exact absurd h (splitSlash_ne_nil s.data)
  · show '/' ∉ (splitSlash s.data).getLastD []
    rw [h, List.getLastD_concat]
    exact no_slash_of_mem_splitSlash (h ▸ List.mem_concat_self gs g)

theorem data_ne_nil_of_ne_empty {b : String} (h : b ≠ "") : b.data ≠ [] := by
  intro hd
  exact h (String.ext hd)

theorem head_ne_slash_of_no_slash {b : List Char} (hs : '/' ∉ b) :
    ¬ b.head? = some '/' := by
  intro hh
  cases b with
  | nil => simp at hh
  | cons x xs =>
    simp only [List.head?_cons, Option.some_inj] at hh
    exact hs (hh ▸ List.mem_cons_self x xs)

theorem eq_dropLast_concat_of_getLast_slash {a : List Char}
    (hlast : a.getLast? = some '/') :
    a = a.dropLast ++ '/' :: [] := by
  have hane : a ≠ [] := by
    intro h0; rw [h0] at hlast; simp at hlast
  have hget : a.getLast hane = '/' := by
    rw [List.getLast?_eq_getLast a hane] at hlast
    exact Option.some_inj.mp hlast
  conv_lhs => rw [← List.dropLast_concat_getLast hane, hget]

theorem resolveL_append_last (d b : List Char) (hs : '/' ∉ b)
    (h0 : ¬ String.mk b = "") (h1 : ¬ String.mk b = ".")
    (h2 : ¬ String.mk b = "..") :
    resolveL (d ++ '/' :: b) = resolveL d ++ [String.mk b] := by
  rw [resolveL, splitSlash_append, splitSlash_of_no_slash hs,
    List.map_append, List.map_singleton, resolveComps_concat, resolveStep,
    if_neg (by simp [h0, h1]), if_neg h2]
  rfl

theorem resolveL_trailing_slash (d : List Char) :
    resolveL (d ++ '/' :: []) = resolveL d := by
  rw [resolveL, splitSlash_append,
    show splitSlash ([] : List Char) = [[]] from rfl,
    List.map_append, List.map_singleton, resolveComps_concat]
  rw [resolveStep, if_pos (Or.inl rfl)]
  rfl

theorem pyBasename_pyJoin (a b : String) (hs : '/' ∉ b.data) :
    pyBasename (pyJoin a b) = b := by
  show String.mk ((splitSlash (pjoinL a.data b.data)).getLastD []) = b
  rw [pjoinL, if_neg (head_ne_slash_of_no_slash hs)]
  by_cases ha : a.data = [] ∨ a.data.getLast? = some '/'
  · rw [if_pos ha]
    rcases ha with hnil | hlast
    · rw [hnil, List.nil_append, splitSlash_of_no_slash hs]
      rfl
    · conv_lhs =>
        rw [eq_dropLast_concat_of_getLast_slash hlast, List.append_assoc,
          List.singleton_append]
      rw [splitSlash_append, splitSlash_of_no_slash hs,
        List.getLastD_concat]
  · rw [if_neg ha, splitSlash_append, splitSlash_of_no_slash hs,
      List.getLastD_concat]

theorem resolvePath_pyJoin (a b : String) (hs : '/' ∉ b.data)
    (h0 : ¬ b = "") (h1 : ¬ b = ".") (h2 : ¬ b = "..") :
    resolvePath (pyJoin a b) = resolvePath a ++ [b] := by
  have hb0 : ¬ String.mk b.data = "" := h0
  have hb1 : ¬ String.mk b.data = "." := h1
  have hb2 : ¬ String.mk b.data = ".." := h2
  show resolveL (pjoinL a.data b.data) = resolveL a.data ++ [b]
  rw [pjoinL, if_neg (head_ne_slash_of_no_slash hs)]
  by_cases ha : a.data = [] ∨ a.data.getLast? = some '/'
  · rw [if_pos ha]
    rcases ha with hnil | hlast
    · rw [hnil, List.nil_append]
      have hres : resolveL b.data
          = resolveL ([] : List Char) ++ [String.mk b.data] := by
        rw [resolveL, splitSlash_of_no_slash hs, List.map_singleton]
        show resolveStep [] (String.mk b.data) = _
        rw [resolveStep, if_neg (by simp [hb0, hb1]), if_neg hb2]
        rfl
      exact hres
    · conv_lhs =>
        rw [eq_dropLast_concat_of_getLast_slash hlast, List.append_assoc,
          List.singleton_append]
      conv_rhs =>
        rw [show a.data = a.data.dropLast ++ '/' :: [] from
          eq_dropLast_concat_of_getLast_slash hlast]
      rw [resolveL_append_last _ _ hs hb0 hb1 hb2, resolveL_trailing_slash]
  · rw [if_neg ha]
    exact resolveL_append_last a.data b.data hs hb0 hb1 hb2

/-! ## Claim C1 — artifact download and path escape -/

/-- **C1.** The claim states that a resolved artifact path escaping the
session's cwd yields HTTP 403 and that a file outside the cwd is never
served.  The code has no such branch for registry sessions:
`get_artifact_path` joins the cwd with the raw requested name and only
checks file existence, and `download_artifact` serves whatever path comes
back.  Concretely, for a session with cwd `/work/sessions/s1/cwd` and the
requested name `../../../../etc/passwd`, when `/etc/passwd` exists the
endpoint answers with a 200 `FileResponse` serving a path that resolves
to `/etc/passwd`, strictly outside the cwd. -/
theorem download_artifact_serves_escaped_path :
    download_artifact [["etc", "passwd"]]
        ⟨"/work/sessions/s1/cwd", "/work/sessions/s1"⟩
        "../../../../etc/passwd"
      = .fileResponse "/work/sessions/s1/cwd/../../../../etc/passwd"
    ∧ resolvePath "/work/sessions/s1/cwd/../../../../etc/passwd"
      = ["etc", "passwd"]
    ∧ underDir "/work/sessions/s1/cwd"
        "/work/sessions/s1/cwd/../../../../etc/passwd" = false := by
  refine ⟨by decide, by decide, by decide⟩

/-! ## Claim C7 — file upload is sanitized to a basename under cwd -/

/-- **C7.** For every upload to an existing session, with any requested
filename: the target path is `join(session.cwd, basename(filename))`, the
bytes written are exactly the decoded request content, and whenever the
OS-level open succeeds the written path resolves to a direct child of the
session's cwd — the write never escapes the cwd. -/
theorem upload_file_writes_basename_under_cwd
    (b64decode utf8encode : String → List Nat)
    (s : ServerSession) (req : UploadFileRequest) (wo : WriteOp)
    (h : (upload_file_route b64decode utf8encode s req).2 = some wo) :
    wo.path = pyJoin s.cwd (pyBasename req.filename)
    ∧ wo.data = decodeUploadContent b64decode utf8encode req
    ∧ resolvePath wo.path
        = resolvePath s.cwd ++ [pyBasename req.filename] := by
  have hbase : pyBasename (pyJoin s.cwd (pyBasename req.filename))
      = pyBasename req.filename :=
    pyBasename_pyJoin _ _ (pyBasename_no_slash req.filename)
  simp only [upload_file_route, upload_file_manager, posixOpenWrite,
    hbase] at h
  by_cases hc : pyBasename req.filename = "" ∨ pyBasename req.filename = "."
      ∨ pyBasename req.filename = ".."
  · rw [if_pos hc] at h
    cases h
  · rw [if_neg hc] at h
    push_neg at hc
    obtain ⟨h0, h1, h2⟩ := hc
    obtain rfl : wo = ⟨pyJoin s.cwd (pyBasename req.filename),
        decodeUploadContent b64decode utf8encode req⟩ :=
      (Option.some_inj.mp h).symm
    refine ⟨rfl, rfl, ?_⟩
    exact resolvePath_pyJoin s.cwd (pyBasename req.filename)
      (pyBasename_no_slash req.filename) h0 h1 h2

/-- Witness for C7: the spec's own upload scenario — filename
`../../etc/passwd`, base64 content decoding to the byte `x` — is written
to `<cwd>/passwd` inside the session cwd. -/
theorem upload_file_writes_basename_under_cwd_witness :
    ((upload_file_route (fun _ => [120]) (fun _ => [])
        ⟨"/work/sessions/s1/cwd", "/work/sessions/s1"⟩
        ⟨"../../etc/passwd", "eA==", "base64"⟩).2
      = some ⟨"/work/sessions/s1/cwd/passwd", [120]⟩)
    ∧ ((⟨"/work/sessions/s1/cwd/passwd", [120]⟩ : WriteOp).path
        = pyJoin "/work/sessions/s1/cwd" (pyBasename "../../etc/passwd")
      ∧ (⟨"/work/sessions/s1/cwd/passwd", [120]⟩ : WriteOp).data
        = decodeUploadContent (fun _ => [120]) (fun _ => [])
            ⟨"../../etc/passwd", "eA==", "base64"⟩
      ∧ resolvePath
          (⟨"/work/sessions/s1/cwd/passwd", [120]⟩ : WriteOp).path
        = resolvePath "/work/sessions/s1/cwd"
            ++ [pyBasename "../../etc/passwd"]) :=
  ⟨by decide,
   upload_file_writes_basename_under_cwd (fun _ => [120]) (fun _ => [])
     ⟨"/work/sessions/s1/cwd", "/work/sessions/s1"⟩
     ⟨"../../etc/passwd", "eA==", "base64"⟩
     ⟨"/work/sessions/s1/cwd/passwd", [120]⟩ (by decide)⟩

/-! ## Claim C10 — stop_session removes the id even when the kernel
environment fails to stop -/

/-- **C10.** For every session id in the registry, `stop_session` returns
normally and removes the id from the map even when
`environment.stop_session` raises (the error is only logged): afterwards
the session no longer exists, a second stop fails with not-found, and a
create with the same id succeeds. -/
theorem stop_session_removes_id_even_on_env_error
    (envStop : String → Except String Unit) (sessions : List String)
    (session_id : String) (hnd : sessions.Nodup)
    (hmem : session_id ∈ sessions) :
    stop_session envStop sessions session_id
      = .ok (sessions.erase session_id)
    ∧ session_id ∉ sessions.erase session_id
    ∧ stop_session envStop (sessions.erase session_id) session_id
      = .error ("Session " ++ session_id ++ " not found")
    ∧ create_session (sessions.erase session_id) session_id
      = .ok (sessions.erase session_id ++ [session_id]) := by
  have hout : session_id ∉ sessions.erase session_id :=
    List.Nodup.not_mem_erase hnd
  refine ⟨?_, hout, ?_, ?_⟩
  · rw [stop_session, if_pos hmem]
    cases envStop session_id <;> rfl
  · rw [stop_session, if_neg hout]
  · rw [create_session, if_neg hout]

/-- Witness for C10 at a concrete registry `["s1", "s2"]` whose kernel
environment raises on stop. -/
theorem stop_session_removes_id_even_on_env_error_witness :
    stop_session (fun _ => .error "kernel stop failed") ["s1", "s2"] "s1"
      = .ok ["s2"]
    ∧ "s1" ∉ ["s2"]
    ∧ stop_session (fun _ => .error "kernel stop failed") ["s2"] "s1"
      = .error ("Session " ++ "s1" ++ " not found")
    ∧ create_session ["s2"] "s1" = .ok (["s2"] ++ ["s1"]) := by
  have h := stop_session_removes_id_even_on_env_error
    (fun _ => .error "kernel stop failed") ["s1", "s2"] "s1"
    (by decide) (by decide)
  simpa using h

/-! ## Compaction lemmas and claims C4, C5, C6 -/

theorem compactedEndIdx_concat (q : List CompactedMessage)
    (m : CompactedMessage) : compactedEndIdx (q ++ [m]) = m.end_index := by
  rw [compactedEndIdx, get_compaction, List.getLast?_concat]

/-- A worker pass either leaves the queue unchanged or appends exactly one
message with `start_index = 1` and an `end_index` strictly above the
previous compaction end. -/
theorem try_compact_step (cfg : CompactorConfig) (llm : Option String)
    (total : Nat) (q : List CompactedMessage) :
    try_compact cfg llm total q = q
    ∨ ∃ m : CompactedMessage, try_compact cfg llm total q = q ++ [m]
        ∧ m.start_index = 1 ∧ compactedEndIdx q < m.end_index := by
  simp only [try_compact]
  by_cases h1 : total = 0
  · rw [if_pos h1]; left; rfl
  rw [if_neg h1]
  by_cases h2 : (total : Int) - compactedEndIdx q < cfg.threshold
  · rw [if_pos h2]; left; rfl
  rw [if_neg h2]
  by_cases h3 : (total : Int) - cfg.retain_recent ≤ 0
      ∨ compactedEndIdx q ≥ (total : Int) - cfg.retain_recent
  · rw [if_pos h3]; left; rfl
  rw [if_neg h3]
  rcases llm with _ | s
  · left
    simp [do_compaction]
  · by_cases hb : summaryIsBlank s = true
    · left
      simp [do_compaction, hb]
    · right
      refine ⟨⟨1, (total : Int) - cfg.retain_recent, s⟩, ?_, rfl, ?_⟩
      · simp [do_compaction, hb]
      · show compactedEndIdx q < (total : Int) - cfg.retain_recent
        omega

theorem compactedEndIdx_le_of_step {q q2 : List CompactedMessage}
    (h : CompactorStep q q2) : compactedEndIdx q ≤ compactedEndIdx q2 := by
  obtain ⟨cfg, llm, total, rfl⟩ := h
  rcases try_compact_step cfg llm total q with heq | ⟨m, heq, _, hlt⟩
  · rw [heq]
  · rw [heq, compactedEndIdx_concat]
    exact le_of_lt hlt

theorem compactedEndIdx_le_of_steps {q q2 : List CompactedMessage}
    (h : Relation.ReflTransGen CompactorStep q q2) :
    compactedEndIdx q ≤ compactedEndIdx q2 := by
  induction h with
  | refl => exact le_refl _
  | tail _ hstep ih => exact le_trans ih (compactedEndIdx_le_of_step hstep)

theorem start_one_of_reachable {q : List CompactedMessage}
    (h : CompactorReachable q) : ∀ m ∈ q, m.start_index = 1 := by
  induction h with
  | refl => intro m hm; cases hm
  | tail _ hstep ih =>
    obtain ⟨cfg, llm, total, rfl⟩ := hstep
    rename_i qmid _
    rcases try_compact_step cfg llm total qmid with heq | ⟨m0, heq, hst, _⟩
    · rw [heq]; exact ih
    · rw [heq]
      intro m hm
      rcases List.mem_append.mp hm with hm | hm
      · exact ih m hm
      · rw [List.mem_singleton.mp hm]
        exact hst

/-- **C4.** Observed compactions of one compactor instance are monotone:
if a reachable queue state `q` is observed with latest compaction `m1`
and a later state `q2` with latest compaction `m2`, then
`m1.end_index ≤ m2.end_index` and both have `start_index = 1`; moreover
every pass that appends a message keeps `end_index` strictly increasing
and its `start_index` is 1. -/
theorem compaction_monotone :
    (∀ q q2 m1 m2, CompactorReachable q
      → Relation.ReflTransGen CompactorStep q q2
      → get_compaction q = some m1 → get_compaction q2 = some m2
      → m1.end_index ≤ m2.end_index
        ∧ m1.start_index = 1 ∧ m2.start_index = 1)
    ∧ (∀ q cfg llm total m, try_compact cfg llm total q = q ++ [m]
        → compactedEndIdx q < m.end_index ∧ m.start_index = 1) := by
  constructor
  · intro q q2 m1 m2 hreach hsteps hm1 hm2
    have hle := compactedEndIdx_le_of_steps hsteps
    rw [compactedEndIdx, hm1] at hle
    rw [compactedEndIdx, hm2] at hle
    refine ⟨hle, ?_, ?_⟩
    · exact start_one_of_reachable hreach m1 (List.mem_of_mem_getLast? hm1)
    · exact start_one_of_reachable (hreach.trans hsteps) m2
        (List.mem_of_mem_getLast? hm2)
  · intro q cfg llm total m heq
    rcases try_compact_step cfg llm total q with h | ⟨m0, h, hst, hlt⟩
    · rw [heq] at h
      exact absurd h.symm (by simp)
    · rw [heq] at h
      have hm0 : m = m0 := by
        have := List.append_cancel_left h
        simpa using this
      rw [hm0]
      exact ⟨hlt, hst⟩

/-- Witness for C4: starting from the empty queue, one pass with
threshold 3 and retain_recent 1 over 5 rounds reaches the queue
`[⟨1, 4, "s"⟩]`; observing it twice gives `4 ≤ 4` and start index 1, and
the pass itself appended `⟨1, 4, "s"⟩` above the previous end 0. -/
theorem compaction_monotone_witness :
    ((4 : Int) ≤ 4 ∧ (1 : Int) = 1 ∧ (1 : Int) = 1)
    ∧ (compactedEndIdx [] < (4 : Int) ∧ (1 : Int) = 1) := by
  have hstep : CompactorStep [] [⟨1, 4, "s"⟩] :=
    ⟨⟨3, 1⟩, some "s", 5, by decide⟩
  have hreach : CompactorReachable [⟨1, 4, "s"⟩] :=
    Relation.ReflTransGen.single hstep
  refine ⟨?_, ?_⟩
  · exact compaction_monotone.1 [⟨1, 4, "s"⟩] [⟨1, 4, "s"⟩]
      ⟨1, 4, "s"⟩ ⟨1, 4, "s"⟩ hreach Relation.ReflTransGen.refl rfl rfl
  · exact compaction_monotone.2 [] ⟨3, 1⟩ (some "s") 5 ⟨1, 4, "s"⟩ (by decide)

/-- **C5.** A pass over `total` rounds with previous compaction end `e`
(`e = 0` when none) compacts iff `total > 0`,
`total − e ≥ threshold` and `total − retain_recent > max e 0`; the
appended message has `end_index = total − retain_recent`.  With
threshold 3 and retain_recent 1, a pass over 5 rounds from the empty
queue appends `end_index = 4` and a later pass over 10 rounds appends
`end_index = 9`. -/
theorem try_compact_guard_characterization
    (cfg : CompactorConfig) (total : Nat) (q : List CompactedMessage)
    (s : String) (hs : summaryIsBlank s = false) :
    ((∃ m, try_compact cfg (some s) total q = q ++ [m])
      ↔ (0 < total
         ∧ cfg.threshold ≤ (total : Int) - compactedEndIdx q
         ∧ max (compactedEndIdx q) 0 < (total : Int) - cfg.retain_recent))
    ∧ (∀ m, try_compact cfg (some s) total q = q ++ [m]
        → m = ⟨1, (total : Int) - cfg.retain_recent, s⟩)
    ∧ try_compact ⟨3, 1⟩ (some s) 5 [] = [⟨1, 4, s⟩]
    ∧ try_compact ⟨3, 1⟩ (some s) 10 [⟨1, 4, s⟩]
      = [⟨1, 4, s⟩, ⟨1, 9, s⟩] := by
  have hmain : try_compact cfg (some s) total q
      = if 0 < total
           ∧ cfg.threshold ≤ (total : Int) - compactedEndIdx q
           ∧ max (compactedEndIdx q) 0 < (total : Int) - cfg.retain_recent
        then q ++ [⟨1, (total : Int) - cfg.retain_recent, s⟩]
        else q := by
    by_cases hg : 0 < total
        ∧ cfg.threshold ≤ (total : Int) - compactedEndIdx q
        ∧ max (compactedEndIdx q) 0 < (total : Int) - cfg.retain_recent
    · obtain ⟨hg1, hg2, hg3⟩ := hg
      rw [if_pos ⟨hg1, hg2, hg3⟩]
      simp only [try_compact]
      rw [if_neg (by omega), if_neg (by omega), if_neg (by omega)]
      simp [do_compaction, hs]
    · rw [if_neg hg]
      simp only [try_compact]
      by_cases h1 : total = 0
      · rw [if_pos h1]
      rw [if_neg h1]
      by_cases h2 : (total : Int) - compactedEndIdx q < cfg.threshold
      · rw [if_pos h2]
      rw [if_neg h2]
      have h3 : (total : Int) - cfg.retain_recent ≤ 0
          ∨ compactedEndIdx q ≥ (total : Int) - cfg.retain_recent := by
        by_contra hcon
        exact hg ⟨by omega, by omega, by omega⟩
      rw [if_pos h3]
  refine ⟨?_, ?_, ?_, ?_⟩
  · constructor
    · rintro ⟨m, hm⟩
      by_contra hg
      rw [hmain, if_neg hg] at hm
      exact absurd hm.symm (by simp)
    · intro hg
      exact ⟨_, by rw [hmain, if_pos hg]⟩
  · intro m hm
    by_cases hg : 0 < total
        ∧ cfg.threshold ≤ (total : Int) - compactedEndIdx q
        ∧ max (compactedEndIdx q) 0 < (total : Int) - cfg.retain_recent
    · rw [hmain, if_pos hg] at hm
      have := List.append_cancel_left hm
      simpa using this.symm
    · rw [hmain, if_neg hg] at hm
      exact absurd hm.symm (by simp)
  · simp [try_compact, compactedEndIdx, get_compaction, do_compaction, hs]
  · simp [try_compact, compactedEndIdx, get_compaction, do_compaction, hs]

/-- Witness for C5 with the non-blank summary `"s"`: instantiates the
characterization and checks the spec's 5-round and 10-round scenario. -/
theorem try_compact_guard_characterization_witness :
    ((∃ m, try_compact ⟨3, 1⟩ (some "s") 5 [] = [] ++ [m])
      ↔ (0 < 5
         ∧ (⟨3, 1⟩ : CompactorConfig).threshold
             ≤ ((5 : Nat) : Int) - compactedEndIdx []
         ∧ max (compactedEndIdx []) 0
             < ((5 : Nat) : Int) - (⟨3, 1⟩ : CompactorConfig).retain_recent))
    ∧ (∀ m, try_compact ⟨3, 1⟩ (some "s") 5 [] = [] ++ [m]
        → m = ⟨1, ((5 : Nat) : Int) - (⟨3, 1⟩ : CompactorConfig).retain_recent,
            "s"⟩)
    ∧ try_compact ⟨3, 1⟩ (some "s") 5 [] = [⟨1, 4, "s"⟩]
    ∧ try_compact ⟨3, 1⟩ (some "s") 10 [⟨1, 4, "s"⟩]
      = [⟨1, 4, "s"⟩, ⟨1, 9, "s"⟩] :=
  try_compact_guard_characterization ⟨3, 1⟩ 5 [] "s" (by decide)

/-- **C6.** A failing pass — the LLM call raising, or returning an empty
or whitespace-only summary — appends nothing: the queue is returned
unchanged (so `get_compaction()` is exactly what it was before), and the
pass is a total function on queue states, so no exception propagates out
of the worker. -/
theorem failed_pass_preserves_compaction
    (cfg : CompactorConfig) (total : Nat) (q : List CompactedMessage)
    (llm : Option String)
    (hfail : llm = none ∨ ∃ s, llm = some s ∧ summaryIsBlank s = true) :
    try_compact cfg llm total q = q
    ∧ get_compaction (try_compact cfg llm total q) = get_compaction q := by
  have hq : try_compact cfg llm total q = q := by
    rcases try_compact_step cfg llm total q with h | ⟨m, h, _, _⟩
    · exact h
    · exfalso
      rcases hfail with rfl | ⟨s, rfl, hb⟩
      · simp only [try_compact] at h
        rcases em (total = 0) with h1 | h1
        · rw [if_pos h1] at h
          exact absurd h.symm (by simp)
        rw [if_neg h1] at h
        rcases em ((total : Int) - compactedEndIdx q < cfg.threshold)
          with h2 | h2
        · rw [if_pos h2] at h
          exact absurd h.symm (by simp)
        rw [if_neg h2] at h
        rcases em ((total : Int) - cfg.retain_recent ≤ 0
            ∨ compactedEndIdx q ≥ (total : Int) - cfg.retain_recent)
          with h3 | h3
        · rw [if_pos h3] at h
          exact absurd h.symm (by simp)
        rw [if_neg h3] at h
        simp [do_compaction] at h
      · simp only [try_compact] at h
        rcases em (total = 0) with h1 | h1
        · rw [if_pos h1] at h
          exact absurd h.symm (by simp)
        rw [if_neg h1] at h
        rcases em ((total : Int) - compactedEndIdx q < cfg.threshold)
          with h2 | h2
        · rw [if_pos h2] at h
          exact absurd h.symm (by simp)
        rw [if_neg h2] at h
        rcases em ((total : Int) - cfg.retain_recent ≤ 0
            ∨ compactedEndIdx q ≥ (total : Int) - cfg.retain_recent)
          with h3 | h3
        · rw [if_pos h3] at h
          exact absurd h.symm (by simp)
        rw [if_neg h3] at h
        simp [do_compaction, hb] at h
  exact ⟨hq, by rw [hq]⟩

/-- Witness for C6: a whitespace-only summary over 3 rounds with
threshold 1 leaves the empty queue (and the reported compaction)
unchanged. -/
theorem failed_pass_preserves_compaction_witness :
    try_compact ⟨1, 0⟩ (some "  ") 3 [] = []
    ∧ get_compaction (try_compact ⟨1, 0⟩ (some "  ") 3 [])
      = get_compaction [] :=
  failed_pass_preserves_compaction ⟨1, 0⟩ 3 [] (some "  ")
    (Or.inr ⟨"  ", rfl, by decide⟩)

/-! ## Claim C2 — streaming event order -/

theorem foldl_qput (outs : List (String × String)) (init : List StreamEvent) :
    outs.foldl (fun q o => qput q (.output o.1 o.2)) init
      = init ++ outs.map (fun o => StreamEvent.output o.1 o.2) := by
  induction outs generalizing init with
  | nil => simp
  | cons o os ih =>
    rw [List.foldl_cons, ih, List.map_cons]
    simp [qput]

theorem execute_streaming_eq (exec_id : String)
    (outs : List (String × String)) (outcome : Except String ExecResult) :
    execute_streaming exec_id outs outcome
      = outs.map (fun o => StreamEvent.output o.1 o.2)
          ++ [StreamEvent.result (streamResultOf exec_id outcome)]
          ++ [StreamEvent.done] := by
  cases outcome <;>
    · simp only [execute_streaming, foldl_qput, streamResultOf]
      simp [qput]

/-- **C2.** Every streaming execution enqueues, in order: one `output`
event per `on_output` delivery, then exactly one `result` event, then
exactly one `done` event — also when there is no output, and also when
the execution raises (the queue then carries the failure result, whose
`is_success` is `false`). -/
theorem streaming_event_order (exec_id : String)
    (outs : List (String × String)) (outcome : Except String ExecResult) :
    (execute_streaming exec_id outs outcome
      = outs.map (fun o => StreamEvent.output o.1 o.2)
          ++ [StreamEvent.result (streamResultOf exec_id outcome)]
          ++ [StreamEvent.done])
    ∧ (execute_streaming exec_id outs outcome).countP isResultEvent = 1
    ∧ (execute_streaming exec_id outs outcome).countP isDoneEvent = 1
    ∧ execute_streaming exec_id [] outcome
      = [StreamEvent.result (streamResultOf exec_id outcome),
         StreamEvent.done]
    ∧ (∀ msg, (streamResultOf exec_id (.error msg)).is_success = false) := by
  refine ⟨execute_streaming_eq exec_id outs outcome, ?_, ?_, ?_, ?_⟩
  · rw [execute_streaming_eq]
    simp [List.countP_append, List.countP_map, isResultEvent,
      Function.comp_def, List.countP_eq_zero]
  · rw [execute_streaming_eq]
    simp [List.countP_append, List.countP_map, isDoneEvent,
      Function.comp_def, List.countP_eq_zero]
  · rw [execute_streaming_eq]
    rfl
  · intro msg
    rfl

/-! ## Claim C9 — client start adopts an existing session (409) -/

/-- **C9.** `start()` against a server that already has the session (the
create POST answers 409) marks the client started exactly as a successful
create does, the session stays in the registry so subsequent operations
on the same id succeed (no 404), and a second `start()` on a started
client is a no-op. -/
theorem client_start_adopts_conflict (c : ClientState) (srv : ServerState)
    (hns : c.started = false) (hmem : c.session_id ∈ srv.sessions) :
    client_start c srv = ({ c with started := true }, srv)
    ∧ (client_start c srv).1.started = true
    ∧ sessionOp (client_start c srv).2 c.session_id = .ok ()
    ∧ client_start (client_start c srv).1 (client_start c srv).2
      = client_start c srv
    ∧ (∀ c2 : ClientState, ∀ srv2 : ServerState, c2.started = true
        → client_start c2 srv2 = (c2, srv2)) := by
  have hrun : client_start c srv = ({ c with started := true }, srv) := by
    rw [client_start, if_neg (by simp [hns]), postCreateSession,
      if_pos hmem]
  have hnoop : ∀ c2 : ClientState, ∀ srv2 : ServerState, c2.started = true
      → client_start c2 srv2 = (c2, srv2) := by
    intro c2 srv2 h2
    rw [client_start, if_pos h2]
  refine ⟨hrun, by rw [hrun], ?_, ?_, hnoop⟩
  · rw [hrun, sessionOp, if_pos hmem]
  · rw [hrun]
    exact hnoop _ _ rfl

/-- Witness for C9: client bound to `s1`, not yet started, against a
server that already holds `s1`. -/
theorem client_start_adopts_conflict_witness :
    client_start ⟨"s1", none, false⟩ ⟨"/work", ["s1"]⟩
      = (⟨"s1", none, true⟩, ⟨"/work", ["s1"]⟩)
    ∧ (client_start ⟨"s1", none, false⟩ ⟨"/work", ["s1"]⟩).1.started = true
    ∧ sessionOp (client_start ⟨"s1", none, false⟩ ⟨"/work", ["s1"]⟩).2 "s1"
      = .ok ()
    ∧ client_start (client_start ⟨"s1", none, false⟩ ⟨"/work", ["s1"]⟩).1
        (client_start ⟨"s1", none, false⟩ ⟨"/work", ["s1"]⟩).2
      = client_start ⟨"s1", none, false⟩ ⟨"/work", ["s1"]⟩
    ∧ (∀ c2 : ClientState, ∀ srv2 : ServerState, c2.started = true
        → client_start c2 srv2 = (c2, srv2)) :=
  client_start_adopts_conflict ⟨"s1", none, false⟩ ⟨"/work", ["s1"]⟩
    rfl (by decide)

/-! ## Claim C8 — visible-variable extraction and rendering -/

theorem pyTrunc500_length (s : String) : (pyTrunc500 s).length ≤ 500 := by
  show (s.data.take 500).length ≤ 500
  simp [List.length_take]

theorem pyTrunc500_of_length_le {s : String} (h : s.length ≤ 500) :
    pyTrunc500 s = s := by
  show String.mk (s.data.take 500) = s
  rw [List.take_of_length_le h]

/-- **C8 (counterexample).** The claim says every value whose rendering
raises is rendered as the literal `<unrepresentable>`.  For an ndarray
whose `numpy.array2string` raises, the `except` branch of the ndarray
case renders `<ndarray>` instead — so the claim as stated is false. -/
theorem ndarray_render_failure_not_unrepresentable :
    extract_visible_variables [("a", .ndarray "(2,)" "object" none)]
      = [("a", "<ndarray>")]
    ∧ ("<ndarray>" : String) ≠ "<unrepresentable>" :=
  ⟨by decide, by decide⟩

/-- **C8 (amended).** The snapshot excludes every name starting with `_`,
every name in the fixed ignore set, and every module, function or
plugin-instance value; every rendered string has at most 500 characters;
string values of length ≤ 500 are rendered verbatim; an ndarray whose
`array2string` succeeds renders as
`"ndarray shape=… dtype=… value=…"` (truncated to 500 characters); a
non-array value whose `repr` raises renders as `<unrepresentable>`, while
an ndarray whose rendering raises renders as `<ndarray>`. -/
theorem extract_visible_variables_spec (ns : List (String × PyValue)) :
    (∀ p ∈ extract_visible_variables ns,
      pyStartsWith p.1 "_" = false ∧ p.1 ∉ ignoreNames
      ∧ ∃ v, (p.1, v) ∈ ns ∧ v ≠ .module ∧ v ≠ .function
          ∧ v ≠ .pluginInstance ∧ p.2 = pyTrunc500 (renderValue v))
    ∧ (∀ p ∈ extract_visible_variables ns, p.2.length ≤ 500)
    ∧ (∀ s : String, s.length ≤ 500 → pyTrunc500 (renderValue (.str s)) = s)
    ∧ (∀ shape dtype a2s : String,
        pyTrunc500 (renderValue (.ndarray shape dtype (some a2s)))
          = pyTrunc500 ("ndarray shape=" ++ shape ++ " dtype=" ++ dtype
              ++ " value=" ++ a2s))
    ∧ renderValue (.other none) = "<unrepresentable>"
    ∧ (∀ shape dtype : String,
        renderValue (.ndarray shape dtype none) = "<ndarray>") := by
  have hmem : ∀ p ∈ extract_visible_variables ns,
      ∃ v, (p.1, v) ∈ ns ∧ entrySkipped p.1 v = false
        ∧ p.2 = pyTrunc500 (renderValue v) := by
    intro p hp
    rw [extract_visible_variables] at hp
    obtain ⟨nv, hnv, hf⟩ := List.mem_filterMap.mp hp
    by_cases hskip : entrySkipped nv.1 nv.2 = true
    · rw [if_pos hskip] at hf
      cases hf
    · rw [if_neg hskip] at hf
      obtain rfl := (Option.some_inj.mp hf).symm
      exact ⟨nv.2, hnv, Bool.not_eq_true _ ▸ (by simpa using hskip), rfl⟩
  refine ⟨?_, ?_, ?_, ?_, rfl, fun _ _ => rfl⟩
  · intro p hp
    obtain ⟨v, hv, hskip, hrend⟩ := hmem p hp
    rw [entrySkipped] at hskip
    simp only [decide_eq_false_iff_not, not_or] at hskip
    obtain ⟨h1, h2, h3, h4, h5⟩ := hskip
    exact ⟨by simpa using h1, h2, v, hv, h3, h4, h5, hrend⟩
  · intro p hp
    obtain ⟨v, _, _, hrend⟩ := hmem p hp
    rw [hrend]
    exact pyTrunc500_length _
  · intro s hs
    exact pyTrunc500_of_length_le hs
  · intro shape dtype a2s
    rfl

/-- Witness for C8 at a concrete namespace exercising each rule: a kept
short string, an excluded module, an excluded underscore name. -/
theorem extract_visible_variables_spec_witness :
    (∀ p ∈ extract_visible_variables
        [("x", .str "hello"), ("m", .module), ("_t", .str "hidden")],
      pyStartsWith p.1 "_" = false ∧ p.1 ∉ ignoreNames
      ∧ ∃ v, (p.1, v) ∈ [("x", PyValue.str "hello"), ("m", PyValue.module),
            ("_t", PyValue.str "hidden")]
          ∧ v ≠ .module ∧ v ≠ .function
          ∧ v ≠ .pluginInstance ∧ p.2 = pyTrunc500 (renderValue v))
    ∧ (∀ p ∈ extract_visible_variables
        [("x", .str "hello"), ("m", .module), ("_t", .str "hidden")],
      p.2.length ≤ 500)
    ∧ (∀ s : String, s.length ≤ 500 → pyTrunc500 (renderValue (.str s)) = s)
    ∧ (∀ shape dtype a2s : String,
        pyTrunc500 (renderValue (.ndarray shape dtype (some a2s)))
          = pyTrunc500 ("ndarray shape=" ++ shape ++ " dtype=" ++ dtype
              ++ " value=" ++ a2s))
    ∧ renderValue (.other none) = "<unrepresentable>"
    ∧ (∀ shape dtype : String,
        renderValue (.ndarray shape dtype none) = "<ndarray>") :=
  extract_visible_variables_spec
    [("x", .str "hello"), ("m", .module), ("_t", .str "hidden")]

/-! ## Claim C3 — the dangerous set is always blocked -/

theorem subset_visitExprList {v : Policy} {a : PyExpr} {args : List PyExpr}
    (ha : a ∈ args) {x : Violation} (hx : x ∈ visitExpr v a) :
    x ∈ visitExprList v args := by
  induction ha with
  | head bs =>
    rw [visitExprList]
    exact List.mem_append_left _ hx
  | tail b _ ih =>
    rw [visitExprList]
    exact List.mem_append_right _ ih

theorem subset_visitExpr_of_occurs {v : Policy} {e t : PyExpr}
    (h : OccursIn e t) {x : Violation} (hx : x ∈ visitExpr v e) :
    x ∈ visitExpr v t := by
  induction h with
  | refl => exact hx
  | callFunc _ ih =>
    rw [visitExpr]
    exact List.mem_append_left _ (List.mem_append_right _ ih)
  | callArg hmem _ ih =>
    rw [visitExpr]
    exact List.mem_append_right _ (subset_visitExprList hmem ih)
  | attrValue _ ih =>
    rw [visitExpr]
    exact List.mem_append_right _ ih
  | subValue _ ih =>
    rw [visitExpr]
    exact List.mem_append_left _ (List.mem_append_right _ ih)
  | subSlice _ ih =>
    rw [visitExpr]
    exact List.mem_append_right _ ih

theorem subset_visitStmt_of_occurs {v : Policy} {e : PyExpr} {s : PyStmt}
    (h : OccursInStmt e s) {x : Violation} (hx : x ∈ visitExpr v e) :
    x ∈ visitStmt v s := by
  cases h with
  | exprStmt h0 =>
    rw [visitStmt]
    exact subset_visitExpr_of_occurs h0 hx
  | assignTarget hmem h0 =>
    rw [visitStmt]
    exact List.mem_append_left _ (List.mem_append_right _
      (subset_visitExprList hmem (subset_visitExpr_of_occurs h0 hx)))
  | assignValue h0 =>
    rw [visitStmt]
    exact List.mem_append_right _ (subset_visitExpr_of_occurs h0 hx)

theorem subset_validatorErrors_of_occurs {v : Policy} {e : PyExpr}
    {prog : List PyStmt} (h : OccursInProg e prog) {x : Violation}
    (hx : x ∈ visitExpr v e) : x ∈ validatorErrors v prog := by
  obtain ⟨s, hs, hocc⟩ := h
  induction hs with
  | head ss =>
    rw [validatorErrors]
    exact List.mem_append_left _ (subset_visitStmt_of_occurs hocc hx)
  | tail b _ ih =>
    rw [validatorErrors]
    exact List.mem_append_right _ ih

/-- **C3.** For every verifier policy configuration satisfying the
constructor's asserts (including the configuration with no lists at all)
and every parsed input program: a call whose callee is a name in the
dangerous set, a call whose callee is an attribute access on a dangerous
name, an attribute access on a dangerous name, and a subscript whose key
is a constant string that is dangerous or begins with `__`, each put
their violation into the returned error list. -/
theorem dangerous_names_always_blocked (v : Policy) (_hwf : PolicyWF v)
    (prog : List PyStmt) :
    (∀ (n m : Nat) (fn : String) (args : List PyExpr),
      fn ∈ DANGEROUS_BUILTINS
      → OccursInProg (.call n (.name m fn) args) prog
      → Violation.dangerousFunction n (lineAt v n) fn
          ∈ validatorErrors v prog)
    ∧ (∀ (n m : Nat) (obj : PyExpr) (fn : String) (args : List PyExpr),
      fn ∈ DANGEROUS_BUILTINS
      → OccursInProg (.call n (.attrAccess m obj fn) args) prog
      → Violation.dangerousFunction n (lineAt v n) fn
          ∈ validatorErrors v prog)
    ∧ (∀ (n : Nat) (obj : PyExpr) (a : String),
      a ∈ DANGEROUS_BUILTINS
      → OccursInProg (.attrAccess n obj a) prog
      → Violation.attributeBlocked n (lineAt v n) a
          ∈ validatorErrors v prog)
    ∧ (∀ (n m : Nat) (obj : PyExpr) (key : String),
      (key ∈ DANGEROUS_BUILTINS ∨ pyStartsWith key "__" = true)
      → OccursInProg (.subscriptE n obj (.const m (some key))) prog
      → Violation.subscriptBlocked n (lineAt v n) key
          ∈ validatorErrors v prog) := by
  refine ⟨?_, ?_, ?_, ?_⟩
  · intro n m fn args hfn hocc
    refine subset_validatorErrors_of_occurs hocc ?_
    rw [visitExpr]
    refine List.mem_append_left _ (List.mem_append_left _ ?_)
    rw [callOwnErrors]
    exact List.mem_append_right _ (by rw [if_pos hfn]; exact List.mem_singleton.mpr rfl)
  · intro n m obj fn args hfn hocc
    refine subset_validatorErrors_of_occurs hocc ?_
    rw [visitExpr]
    refine List.mem_append_left _ (List.mem_append_left _ ?_)
    rw [callOwnErrors]
    exact List.mem_append_right _ (by rw [if_pos hfn]; exact List.mem_singleton.mpr rfl)
  · intro n obj a ha hocc
    refine subset_validatorErrors_of_occurs hocc ?_
    rw [visitExpr]
    refine List.mem_append_left _ ?_
    rw [attributeOwnErrors, if_pos ha]
    exact List.mem_singleton.mpr rfl
  · intro n m obj key hkey hocc
    refine subset_validatorErrors_of_occurs hocc ?_
    rw [visitExpr]
    refine List.mem_append_left _ (List.mem_append_left _ ?_)
    rw [subscriptOwnErrors]
    rw [if_pos (by simpa using hkey)]
    exact List.mem_singleton.mpr rfl

/-- Witness for C3: the empty policy (no lists configured) on the
three-statement program `getattr(x)`, `o.__dict__`, `o["__x"]`. -/
theorem dangerous_names_always_blocked_witness :
    (Violation.dangerousFunction 1
        (lineAt ⟨["getattr(x)", "o.__dict__", "o[*]"], none, none, none,
          none, none⟩ 1) "getattr"
      ∈ validatorErrors
          ⟨["getattr(x)", "o.__dict__", "o[*]"], none, none, none, none,
            none⟩
          [.exprStmt (.call 1 (.name 1 "getattr") [.name 1 "x"]),
           .exprStmt (.attrAccess 2 (.name 2 "o") "__dict__"),
           .exprStmt (.subscriptE 3 (.name 3 "o") (.const 3 (some "__x")))])
    ∧ (Violation.attributeBlocked 2
        (lineAt ⟨["getattr(x)", "o.__dict__", "o[*]"], none, none, none,
          none, none⟩ 2) "__dict__"
      ∈ validatorErrors
          ⟨["getattr(x)", "o.__dict__", "o[*]"], none, none, none, none,
            none⟩
          [.exprStmt (.call 1 (.name 1 "getattr") [.name 1 "x"]),
           .exprStmt (.attrAccess 2 (.name 2 "o") "__dict__"),
           .exprStmt (.subscriptE 3 (.name 3 "o") (.const 3 (some "__x")))])
    ∧ (Violation.subscriptBlocked 3
        (lineAt ⟨["getattr(x)", "o.__dict__", "o[*]"], none, none, none,
          none, none⟩ 3) "__x"
      ∈ validatorErrors
          ⟨["getattr(x)", "o.__dict__", "o[*]"], none, none, none, none,
            none⟩
          [.exprStmt (.call 1 (.name 1 "getattr") [.name 1 "x"]),
           .exprStmt (.attrAccess 2 (.name 2 "o") "__dict__"),
           .exprStmt (.subscriptE 3 (.name 3 "o") (.const 3 (some "__x")))]) := by
  have h := dangerous_names_always_blocked
    ⟨["getattr(x)", "o.__dict__", "o[*]"], none, none, none, none, none⟩
    ⟨Or.inl rfl, Or.inl rfl⟩
    [.exprStmt (.call 1 (.name 1 "getattr") [.name 1 "x"]),
     .exprStmt (.attrAccess 2 (.name 2 "o") "__dict__"),
     .exprStmt (.subscriptE 3 (.name 3 "o") (.const 3 (some "__x")))]
  refine ⟨?_, ?_, ?_⟩
  · exact h.1 1 1 "getattr" [.name 1 "x"] (by decide)
      ⟨_, List.mem_cons_self _ _,
        OccursInStmt.exprStmt (OccursIn.refl _)⟩
  · exact h.2.2.1 2 (.name 2 "o") "__dict__" (by decide)
      ⟨_, List.mem_cons_of_mem _ (List.mem_cons_self _ _),
        OccursInStmt.exprStmt (OccursIn.refl _)⟩
  · exact h.2.2.2 3 3 (.name 3 "o") "__x" (Or.inr (by decide))
      ⟨_, List.mem_cons_of_mem _ (List.mem_cons_of_mem _
          (List.mem_cons_self _ _)),
        OccursInStmt.exprStmt (OccursIn.refl _)⟩

end TaskWeaver
